import Mathlib

/-!
# The watchdog request handler (`handler.go`)

A shallow embedding of `handler.go` and the properties of its request pipeline.

Conventions of the embedding.

* Go `string` and `[]byte` values are Lean `String`s; `len(x) > 0` is `x.length > 0`.
* `http.Header` is a Go map from a key to a slice of values.  It is embedded as the list of
  its entries in the order in which a `range` loop visits them; a value slice may be empty.
* An `error` is `Option String`: `none` is `nil`, `some e` is an error whose text is `e`.
* A Go run-time panic is the `error` case of `Except Panic`.
* The `http.ResponseWriter` is a recorder of the calls made on it.
* Calls to `log` and `fmt.Printf` have no effect on any value modelled here and are left out.
* The process behaves as a given `ProcessOutcome`.  The main path of `pipeRequest` and the
  body of the timer callback are two sequences of statements that run interleaved, one
  statement at a time, in the order given by a schedule.
-/

namespace Watchdog

/-! ## net/http values -/

/-- The map `http.Header`, as its entries in iteration order. -/
abbrev HttpHeader := List (String × List String)

/-- The method `Header.Get`: the first value stored under the key, or the empty string.  The
keys passed by the handler are already in canonical form. -/
def HttpHeader.Get (h : HttpHeader) (key : String) : String :=
  match h.lookup key with
  | some (v :: _) => v
  | _ => ""

/-- The method `Header.Set`: the key is bound to the single value, replacing what was there. -/
def HttpHeader.Set : HttpHeader → String → String → HttpHeader
  | [], key, value => [(key, [value])]
  | (k, vs) :: rest, key, value =>
    if k = key then (key, [value]) :: rest else (k, vs) :: HttpHeader.Set rest key value

/-- The outcome of `ioutil.ReadAll` on a request body: the bytes read, and the read error if the
body could not be read to completion. -/
structure Body where
  data : String
  readErr : Option String
deriving DecidableEq

/-- The fields of `http.Request` used by the handler.  `Body = none` is a nil body. -/
structure Request where
  Method : String
  Header : HttpHeader
  Body : Option Body
  ContentLength : Int
  TransferEncoding : List String
  RawQuery : String
  Path : String
  Host : String
deriving DecidableEq

def StatusOK : Nat := 200
def StatusBadRequest : Nat := 400
def StatusMethodNotAllowed : Nat := 405
def StatusRequestTimeout : Nat := 408
def StatusInternalServerError : Nat := 500
def StatusServiceUnavailable : Nat := 503
def MethodGet : String := "GET"

/-- A recording `http.ResponseWriter`: the header map `w.Header()`, every `WriteHeader` call
with the header map as it stood at the call, and the payload of every `Write` call. -/
structure ResponseRecorder where
  header : HttpHeader
  writeHeaderCalls : List (Nat × HttpHeader)
  writes : List String
deriving DecidableEq

/-- A response on which nothing has been called yet. -/
def ResponseRecorder.new : ResponseRecorder :=
  { header := [], writeHeaderCalls := [], writes := [] }

def ResponseRecorder.WriteHeader (w : ResponseRecorder) (code : Nat) : ResponseRecorder :=
  { w with writeHeaderCalls := w.writeHeaderCalls ++ [(code, w.header)] }

def ResponseRecorder.Write (w : ResponseRecorder) (b : String) : ResponseRecorder :=
  { w with writes := w.writes ++ [b] }

def ResponseRecorder.SetHeader (w : ResponseRecorder) (key value : String) : ResponseRecorder :=
  { w with header := w.header.Set key value }

/-- The status codes of the `WriteHeader` calls, in call order. -/
def ResponseRecorder.codes (w : ResponseRecorder) : List Nat :=
  w.writeHeaderCalls.map Prod.fst

/-- The status line sent: the code of the first `WriteHeader` call. -/
def ResponseRecorder.status (w : ResponseRecorder) : Option Nat :=
  w.writeHeaderCalls.head?.map Prod.fst

/-- The response headers sent: the header map at the first `WriteHeader` call. -/
def ResponseRecorder.sentHeader (w : ResponseRecorder) : HttpHeader :=
  match w.writeHeaderCalls with
  | [] => []
  | (_, h) :: _ => h

/-- The response body: the payloads of the `Write` calls, in order. -/
def ResponseRecorder.body (w : ResponseRecorder) : String :=
  w.writes.foldl (fun acc b => acc ++ b) ""

/-! ## Configuration and collaborators -/

/-- The fields of `WatchdogConfig` read by `handler.go` (the type is declared elsewhere in the
package).  `execTimeout` is a `time.Duration`, a signed count of nanoseconds. -/
structure WatchdogConfig where
  execTimeout : Int
  marshalRequest : Bool
  cgiHeaders : Bool
  combineOutput : Bool
  contentType : String
  debugHeaders : Bool
  writeDebug : Bool
  faasProcess : String
deriving DecidableEq

/-- The function `types.MarshalRequest` of the classic-watchdog library: from the raw body and
the request headers to the envelope and a marshalling error. -/
abbrev Marshaler := String → HttpHeader → String × Option String

/-- What the handler reads from the operating system: the inherited environment
`os.Environ()`, the lookup `os.Getenv`, and whether `os.Create` of the timings file succeeds. -/
structure OsEnv where
  environ : List String
  getenv : String → String
  timingsFileOk : Bool

/-- The run-time panics that the handler can raise. -/
inductive Panic
  | indexOutOfRange (index length : Nat)
  | nilPointerDereference
  | closeTimingsFile
deriving DecidableEq

/-! ## buildFunctionInput -/

/-- The function `buildFunctionInput`.  The check `if err != nil` that stands before the read
sees an `err` that is still nil, so it never returns; after the read, marshal mode assigns
`marshalErr` to `err`. -/
def buildFunctionInput (MarshalRequest : Marshaler) (config : WatchdogConfig) (r : Request) :
    String × Option String :=
  match r.Body with
  | none => ("", none)
  | some body =>
    let requestBytes := body.data
    let err := body.readErr
    if config.marshalRequest then
      let (marshalRes, marshalErr) := MarshalRequest requestBytes r.Header
      (marshalRes, marshalErr)
    else
      (requestBytes, err)

/-! ## getAdditionalEnvs -/

/-- The call `strings.Replace(k, "-", "_", -1)`: every hyphen becomes an underscore. -/
def replaceHyphens (k : String) : String :=
  ⟨k.data.map (fun c => if c = '-' then '_' else c)⟩

/-- One iteration of the loop over `r.Header`: `v[0]` panics on an empty slice. -/
def appendHeaderEnv (envs : List String) (kv : String × List String) :
    Except Panic (List String) :=
  match kv.2 with
  | [] => .error (.indexOutOfRange 0 0)
  | v0 :: _ => .ok (envs ++ ["Http_" ++ replaceHyphens kv.1 ++ "=" ++ v0])

/-- The loop `for k, v := range r.Header`, on the entries in iteration order. -/
def rangeHeader : List String → HttpHeader → Except Panic (List String)
  | envs, [] => .ok envs
  | envs, kv :: rest =>
    match appendHeaderEnv envs kv with
    | .error p => .error p
    | .ok envs1 => rangeHeader envs1 rest

/-- The function `getAdditionalEnvs`; `environ` is the value of `os.Environ()`. -/
def getAdditionalEnvs (config : WatchdogConfig) (environ : List String) (r : Request)
    (method : String) : Except Panic (List String) :=
  if config.cgiHeaders then
    match rangeHeader environ r.Header with
    | .error p => .error p
    | .ok envs =>
      let envs := envs ++ ["Http_Method=" ++ method]
      let envs := envs ++ ["Http_ContentLength=" ++ toString r.ContentLength]
      let envs := envs ++ ["Http_Content_Length=" ++ toString r.ContentLength]
      let envs :=
        match r.TransferEncoding with
        | te0 :: _ => envs ++ ["Http_Transfer_Encoding=" ++ te0]
        | [] => envs
      let envs := if r.RawQuery.length > 0 then envs ++ ["Http_Query=" ++ r.RawQuery] else envs
      let envs := if r.Path.length > 0 then envs ++ ["Http_Path=" ++ r.Path] else envs
      let envs := if r.Host.length > 0 then envs ++ ["Http_Host=" ++ r.Host] else envs
      .ok envs
  else
    .ok []

/-! ## pipeRequest

`pipeRequest` has three pieces of code that write the response: the branch taken when the
input cannot be built, the function passed to `time.AfterFunc`, and the code after `wg.Wait()`.
The first runs before the timer exists.  The other two run in two goroutines without any
lock, so each is embedded as the list of its statements, and a run executes the two lists
interleaved. -/

/-- The struct `requestInfo`. -/
structure requestInfo where
  headerWritten : Bool
deriving DecidableEq

/-- The values shared by the goroutines of one `pipeRequest` call.  `processStarted` is
`targetCmd.Process != nil`, `processFinished` is `targetCmd.ProcessState != nil`, `kills`
counts the calls of `targetCmd.Process.Kill()`, and `timerArmed` says that the timer exists
and has neither fired nor been stopped. -/
structure RunState where
  ri : requestInfo
  w : ResponseRecorder
  processStarted : Bool
  processFinished : Bool
  kills : Nat
  timerArmed : Bool
deriving DecidableEq

/-- The shared values at the start of `pipeRequest`: `ri := &requestInfo{}`, a command that is
not yet started, no kill, no timer. -/
def RunState.initial (w : ResponseRecorder) : RunState :=
  { ri := { headerWritten := false }, w := w, processStarted := false,
    processFinished := false, kills := 0, timerArmed := false }

/-- The command `targetCmd`; `Env = none` is the unset field, with which the process inherits
the default environment. -/
structure Cmd where
  Path : String
  Args : List String
  Env : Option (List String)
deriving DecidableEq

/-- What the spawned process does when left to the goroutine that runs `CombinedOutput` or
`Output`: it cannot be started, or it runs and ends with its standard output, its combined
output and the error of the call. -/
inductive ProcessOutcome
  | startFailed (err : String)
  | exited (stdout combined : String) (err : Option String)
deriving DecidableEq

def ProcessOutcome.started : ProcessOutcome → Bool
  | .startFailed _ => false
  | .exited _ _ _ => true

/-- The variable `out` after `wg.Wait()`: `CombinedOutput` when `combineOutput` is set, else
`Output`. -/
def ProcessOutcome.out (combineOutput : Bool) : ProcessOutcome → String
  | .startFailed _ => ""
  | .exited stdout combined _ => if combineOutput then combined else stdout

/-- The variable `err` after `wg.Wait()`. -/
def ProcessOutcome.err : ProcessOutcome → Option String
  | .startFailed e => some e
  | .exited _ _ e => e

/-- The branch of `pipeRequest` taken when `buildFunctionInput` fails; `out` is still nil. -/
def translationErrorPath (buildInputErr : String) (out : String) (s : RunState) : RunState :=
  let s := { s with ri := { headerWritten := true } }
  let s := { s with w := s.w.WriteHeader StatusBadRequest }
  let s := { s with w := s.w.Write buildInputErr }
  let s := { s with w := s.w.Write "\n" }
  { s with w := s.w.Write out }

/-- The statements of `pipeRequest` that read or write a shared value.
`startProcess` is the start of the command in the goroutine, which sets `targetCmd.Process`
when it succeeds; `waitProcess` is the end of the goroutine and the return of `wg.Wait()`,
after which `targetCmd.ProcessState` is set for a process that was started;
`processStateSuccess` is the call `targetCmd.ProcessState.Success()` of the debug log;
`unlessHeaderWritten` is the test `ri.headerWritten == false`, `ifProcess` the test
`targetCmd.Process != nil`; a failed test ends the path. -/
inductive Instr
  | startProcess (started : Bool)
  | waitProcess (started : Bool)
  | timerStop
  | processStateSuccess
  | unlessHeaderWritten
  | ifProcess
  | setHeaderWritten
  | WriteHeader (code : Nat)
  | Write (b : String)
  | HeaderSet (key value : String)
  | Kill
deriving DecidableEq

/-- One statement: the new shared values, whether the path goes on, and the panic raised.
`Success()` on a nil `ProcessState` is a nil pointer dereference. -/
def Instr.run : Instr → RunState → RunState × Bool × Option Panic
  | .startProcess started, s => ({ s with processStarted := started }, true, none)
  | .waitProcess started, s => ({ s with processFinished := started }, true, none)
  | .timerStop, s => ({ s with timerArmed := false }, true, none)
  | .processStateSuccess, s =>
    if s.processFinished then (s, true, none) else (s, false, some .nilPointerDereference)
  | .unlessHeaderWritten, s => (s, s.ri.headerWritten == false, none)
  | .ifProcess, s => (s, s.processStarted, none)
  | .setHeaderWritten, s => ({ s with ri := { headerWritten := true } }, true, none)
  | .WriteHeader code, s => ({ s with w := s.w.WriteHeader code }, true, none)
  | .Write b, s => ({ s with w := s.w.Write b }, true, none)
  | .HeaderSet key value, s => ({ s with w := s.w.SetHeader key value }, true, none)
  | .Kill, s => ({ s with kills := s.kills + 1 }, true, none)

/-- The body of the function passed to `time.AfterFunc`, after its `log.Printf`; `targetCmd`
itself is never nil. -/
def timeoutCallback : List Instr :=
  [.ifProcess,
   .setHeaderWritten,
   .WriteHeader StatusRequestTimeout,
   .Write "Killed process.\n",
   .Kill]

/-- The code of `pipeRequest` after `wg.Wait()` and `timer.Stop()`; `duration` is the text
`fmt.Sprintf("%f", execDuration)`. -/
def completionPath (config : WatchdogConfig) (r : Request) (duration : String)
    (out : String) (err : Option String) : List Instr :=
  match err with
  | some e =>
    (if config.writeDebug then [.processStateSuccess] else []) ++
    [.unlessHeaderWritten,
     .WriteHeader StatusInternalServerError,
     .Write e,
     .Write "\n"] ++
    (if out.length > 0 then [.Write out] else []) ++
    [.setHeaderWritten]
  | none =>
    (if config.contentType.length > 0 then
      [.HeaderSet "Content-Type" config.contentType]
    else
      let clientContentType := r.Header.Get "Content-Type"
      if clientContentType.length > 0 then
        [.HeaderSet "Content-Type" clientContentType]
      else
        []) ++
    [.unlessHeaderWritten,
     .HeaderSet "X-Duration-Seconds" duration,
     .setHeaderWritten,
     .WriteHeader StatusOK,
     .Write out]

/-- The main path of `pipeRequest` from the start of the goroutine on: the process is started
and ends, `wg.Wait()` returns, the timer is stopped if there is one, and the completion code
runs with the `out` and `err` of the process. -/
def mainPath (config : WatchdogConfig) (r : Request) (duration : String)
    (proc : ProcessOutcome) : List Instr :=
  [.startProcess proc.started, .waitProcess proc.started] ++
  (if config.execTimeout > 0 then [.timerStop] else []) ++
  completionPath config r duration (proc.out config.combineOutput) proc.err

/-- The goroutines of one call: the shared values, the statements the main path has still to
run, the statements the callback has still to run (`none` until the timer fires), and the
panic of the main path. -/
structure Machine where
  shared : RunState
  main : List Instr
  timer : Option (List Instr)
  panicked : Option Panic
deriving DecidableEq

/-- Which goroutine runs its next statement. -/
inductive Tick
  | main
  | timer
deriving DecidableEq

/-- The first statement of a path is run; a failed test or a panic ends the path. -/
def stepPath (s : RunState) : List Instr → RunState × List Instr × Option Panic
  | [] => (s, [], none)
  | i :: rest =>
    let (s1, goOn, p) := i.run s
    (s1, if goOn then rest else [], p)

/-- One step of a run.  A tick of the timer goroutine fires the timer when it is armed: the
callback is started and logs; later ticks run its body.  A timer that is not armed, because
it does not exist or was stopped, never fires. -/
def Machine.tick (m : Machine) : Tick → Machine
  | .main =>
    let (s, rest, p) := stepPath m.shared m.main
    { m with shared := s, main := rest,
             panicked := match p with
               | some q => some q
               | none => m.panicked }
  | .timer =>
    match m.timer with
    | none =>
      if m.shared.timerArmed then
        { m with shared := { m.shared with timerArmed := false }, timer := some timeoutCallback }
      else
        m
    | some body =>
      let (s, rest, _) := stepPath m.shared body
      { m with shared := s, timer := some rest }

/-- The ticks of a schedule, in order. -/
def Machine.runSchedule (m : Machine) (schedule : List Tick) : Machine :=
  schedule.foldl Machine.tick m

/-- The goroutines when the timer has been created and the goroutine of the process is about
to start: the timer exists exactly when `execTimeout` is positive. -/
def Machine.spawn (config : WatchdogConfig) (r : Request) (duration : String)
    (proc : ProcessOutcome) (w : ResponseRecorder) : Machine :=
  { shared := { RunState.initial w with timerArmed := decide (config.execTimeout > 0) },
    main := mainPath config r duration proc,
    timer := none,
    panicked := none }

/-- A whole run: the ticks of the schedule, then the main path to its end, then the callback
to its end if it was started. -/
def Machine.complete (m : Machine) (schedule : List Tick) : Machine :=
  m.runSchedule
    (schedule ++ List.replicate m.main.length Tick.main ++
      List.replicate (timeoutCallback.length + 1) Tick.timer)

/-- The argument list of the command. -/
def commandArgs (os : OsEnv) : List String :=
  let args := ["-fsdev", "local,id=myid,path=/fs0,security_model=none",
    "-device", "virtio-9p-pci,fsdev=myid,mount_tag=fs0,disable-modern=on,disable-legacy=off",
    "-kernel", os.getenv "KERNEL_LOCATION",
    "-append", os.getenv "KERNEL_COMMAND_LINE"]
  let args := if os.getenv "ENABLE_KVM" = "true" then args ++ ["-enable-kvm"] else args
  args ++ ["-m", "1G", "-nographic"]

/-- The deferred `fo.Close()`: when `os.Create` failed, `fo` is nil, `Close` returns an error
and the deferred function panics with it. -/
def deferredClose (os : OsEnv) (p : Option Panic) : Option Panic :=
  if os.timingsFileOk then p else some .closeTimingsFile

/-- What one call of `pipeRequest` leaves behind: the shared values, the command that was run
(`none` when no process was spawned), and the panic with which the call ended, if any. -/
structure PipeResult where
  state : RunState
  cmd : Option Cmd
  panicked : Option Panic
deriving DecidableEq

/-- The function `pipeRequest`, for a process that behaves as `proc` and goroutines that run
in the order of `schedule`. -/
def pipeRequest (MarshalRequest : Marshaler) (os : OsEnv) (proc : ProcessOutcome)
    (schedule : List Tick) (duration : String)
    (config : WatchdogConfig) (w : ResponseRecorder) (r : Request) (method : String) :
    PipeResult :=
  let s := RunState.initial w
  let (_, buildInputErr) := buildFunctionInput MarshalRequest config r
  match buildInputErr with
  | some e =>
    { state := translationErrorPath e "" s, cmd := none, panicked := none }
  | none =>
    let args := commandArgs os
    match getAdditionalEnvs config os.environ r method with
    | .error p =>
      { state := s, cmd := none, panicked := deferredClose os (some p) }
    | .ok envs =>
      let targetCmd : Cmd :=
        { Path := "/usr/bin/qemu-system-x86_64", Args := args,
          Env := if envs.length > 0 then some envs else none }
      let m := (Machine.spawn config r duration proc w).complete schedule
      { state := m.shared, cmd := some targetCmd, panicked := deferredClose os m.panicked }

/-! ## The lock file and the health handler -/

/-- The errors of the file system calls: `ErrNotExist`, `ErrPermission`, and the error
`ENOTDIR` of a path one of whose directories is a regular file. -/
inductive OsError
  | ErrNotExist
  | ErrPermission
  | ENOTDIR
deriving DecidableEq

/-- What the file system holds at a path: a file; nothing, in a directory that exists;
nothing, because a directory of the path is a regular file; or a directory that may not be
searched, behind which a file exists or not. -/
inductive PathStatus
  | present
  | absent
  | notDirectory
  | denied (holdsFile : Bool)
deriving DecidableEq

/-- Whether a file exists at a path with this status. -/
def PathStatus.fileExists : PathStatus → Bool
  | .present => true
  | .absent => false
  | .notDirectory => false
  | .denied e => e

/-- The process-wide state read by the health handler: the variable `acceptingConnections`
(an `int32` declared elsewhere in the package), the value of
`filepath.Join(os.TempDir(), ".lock")`, the file system, and whether it is read-only. -/
structure System where
  acceptingConnections : Int
  lockPath : String
  fs : String → PathStatus
  readOnly : Bool

/-- The path `filepath.Join(os.TempDir(), ".lock")`. -/
def lockFilePath (sys : System) : String :=
  sys.lockPath

/-- The error of `os.Stat`. -/
def osStat (sys : System) (path : String) : Option OsError :=
  match sys.fs path with
  | .present => none
  | .absent => some .ErrNotExist
  | .notDirectory => some .ENOTDIR
  | .denied _ => some .ErrPermission

/-- The function `os.IsNotExist`: true of `ErrNotExist` alone; in particular false of nil and
of `ENOTDIR`. -/
def osIsNotExist : Option OsError → Bool
  | some .ErrNotExist => true
  | _ => false

/-- The call `ioutil.WriteFile(path, []byte{}, 0660)`: the file is created or truncated. -/
def ioutilWriteFile (sys : System) (path : String) : System × Option OsError :=
  match sys.fs path with
  | .notDirectory => (sys, some .ENOTDIR)
  | .denied _ => (sys, some .ErrPermission)
  | _ =>
    if sys.readOnly then
      (sys, some .ErrPermission)
    else
      ({ sys with fs := fun p => if p = path then .present else sys.fs p }, none)

/-- The removal of a file by another process. -/
def removeFile (sys : System) (path : String) : System :=
  match sys.fs path with
  | .present => { sys with fs := fun p => if p = path then .absent else sys.fs p }
  | _ => sys

def lockFilePresent (sys : System) : Bool :=
  let path := lockFilePath sys
  if osIsNotExist (osStat sys path) then false else true

/-- The function `createLockFile`: the flag is stored whether or not the write succeeded. -/
def createLockFile (sys : System) : System × String × Option OsError :=
  let path := lockFilePath sys
  let (sys, writeErr) := ioutilWriteFile sys path
  let sys := { sys with acceptingConnections := 1 }
  (sys, path, writeErr)

/-- The handler returned by `makeHealthHandler`. -/
def makeHealthHandler (sys : System) (w : ResponseRecorder) (method : String) :
    ResponseRecorder :=
  if method = MethodGet then
    if sys.acceptingConnections = 0 ∨ lockFilePresent sys = false then
      w.WriteHeader StatusServiceUnavailable
    else
      let w := w.WriteHeader StatusOK
      w.Write "OK"
  else
    w.WriteHeader StatusMethodNotAllowed

/-! ## Reference definitions for the environment projection -/

/-- The call `strings.ToUpper` on a name. -/
def stringsToUpper (s : String) : String :=
  ⟨s.data.map Char.toUpper⟩

/-- The variable made from one header entry that has a first value. -/
def headerVariable (kv : String × List String) : Option String :=
  match kv.2 with
  | [] => none
  | v0 :: _ => some ("Http_" ++ replaceHyphens kv.1 ++ "=" ++ v0)

/-- The header variables of a request: one for each entry, in iteration order. -/
def headerVariables (h : HttpHeader) : List String :=
  h.filterMap headerVariable

/-- The environment of the spawned process as the specification lists it, for given header
variables. -/
def getAdditionalEnvsReference (cgiHeaders : Bool) (environ headerVars : List String)
    (method : String) (contentLength : Int) (transferEncoding : List String)
    (rawQuery path host : String) : List String :=
  if cgiHeaders then
    environ ++ headerVars ++
      ["Http_Method=" ++ method,
       "Http_ContentLength=" ++ toString contentLength,
       "Http_Content_Length=" ++ toString contentLength] ++
      (match transferEncoding with
        | [] => []
        | first :: _ => ["Http_Transfer_Encoding=" ++ first]) ++
      (if rawQuery = "" then [] else ["Http_Query=" ++ rawQuery]) ++
      (if path = "" then [] else ["Http_Path=" ++ path]) ++
      (if host = "" then [] else ["Http_Host=" ++ host])
  else
    []

/-! ## The headers of the completion response -/

/-- The header map that the completion path has built when it calls `WriteHeader(200)` on a
response whose header map was empty. -/
def completionHeader (config : WatchdogConfig) (r : Request) (duration : String) : HttpHeader :=
  HttpHeader.Set
    (if config.contentType.length > 0 then
      HttpHeader.Set [] "Content-Type" config.contentType
    else if (r.Header.Get "Content-Type").length > 0 then
      HttpHeader.Set [] "Content-Type" (r.Header.Get "Content-Type")
    else
      [])
    "X-Duration-Seconds" duration

/-- The header maps with which the `WriteHeader` statements of a path will be called when the
path runs from the header map `h`. -/
def futureSnapshots : List Instr → HttpHeader → List HttpHeader
  | [], _ => []
  | .HeaderSet key value :: rest, h => futureSnapshots rest (h.Set key value)
  | .WriteHeader _ :: rest, h => h :: futureSnapshots rest h
  | _ :: rest, h => futureSnapshots rest h

/-- A statement that neither sets a header nor calls `WriteHeader(200)`. -/
def Instr.quiet : Instr → Bool
  | .HeaderSet _ _ => false
  | .WriteHeader code => code != 200
  | _ => true

/-- Every `WriteHeader(200)` call made so far, and every `WriteHeader` call the main path
will still make, carries the header map `H`, and the callback is made of quiet statements. -/
def sendsOnly (H : HttpHeader) (m : Machine) : Prop :=
  (∀ c ∈ m.shared.w.writeHeaderCalls, c.1 = 200 → c.2 = H) ∧
  (∀ h ∈ futureSnapshots m.main m.shared.w.header, h = H) ∧
  (∀ body, m.timer = some body → ∀ i ∈ body, i.quiet = true)

/-! ## Concrete inputs -/

/-- A configuration with CGI mode on and a five second timeout. -/
def cgiConfig : WatchdogConfig :=
  { execTimeout := 5000000000, marshalRequest := false, cgiHeaders := true,
    combineOutput := false, contentType := "", debugHeaders := false, writeDebug := false,
    faasProcess := "qemu" }

/-- A GET request without body that carries the header `X-Foo: bar` with a second value. -/
def fooRequest : Request :=
  { Method := "GET", Header := [("X-Foo", ["bar", "baz"])], Body := none, ContentLength := 0,
    TransferEncoding := [], RawQuery := "a=1", Path := "/", Host := "example.org" }

/-- A GET request whose header map binds `X-Foo` to an empty slice of values. -/
def emptyValuesRequest : Request :=
  { Method := "GET", Header := [("X-Foo", [])], Body := none, ContentLength := 0,
    TransferEncoding := [], RawQuery := "", Path := "/", Host := "example.org" }

/-- An operating system with one inherited variable and no kernel settings. -/
def plainOs : OsEnv :=
  { environ := ["PATH=/bin"], getenv := fun _ => "", timingsFileOk := true }

/-- A marshaler that wraps the body and never fails, as the JSON marshaler does. -/
def wrapMarshaler : Marshaler :=
  fun data _ => ("[" ++ data ++ "]", none)

/-- A system that has just started: the flag is clear and no file exists. -/
def freshSystem : System :=
  { acceptingConnections := 0, lockPath := "/tmp/.lock", fs := fun _ => .absent,
    readOnly := false }

/-- A system that has just started with `TMPDIR` set to the regular file `/etc/hostname`:
nothing can exist at the lock path. -/
def misconfiguredSystem : System :=
  { acceptingConnections := 0, lockPath := "/etc/hostname/.lock",
    fs := fun p =>
      if p = "/etc/hostname" then .present
      else if p = "/etc/hostname/.lock" then .notDirectory
      else .absent,
    readOnly := false }

/-- A configuration with the debug log on, CGI mode off and no timeout. -/
def debugConfig : WatchdogConfig :=
  { execTimeout := 0, marshalRequest := false, cgiHeaders := false,
    combineOutput := false, contentType := "", debugHeaders := false, writeDebug := true,
    faasProcess := "qemu" }

/-- A process that cannot be started because the executable is missing. -/
def missingProcess : ProcessOutcome :=
  .startFailed "fork/exec /usr/bin/qemu-system-x86_64: no such file or directory"

/-- The timer fires while the process runs and the callback finds `targetCmd.Process` set;
the process then ends, the main path runs to its end, and only then the callback goes on. -/
def firedWhileRunning : List Tick :=
  [.main, .timer, .timer, .main, .main,
   .main, .main, .main, .main, .main]

/-- The timer fires after the process has ended and before `timer.Stop()`; the main path
runs to its end, and only then the callback runs its body. -/
def firedBeforeStop : List Tick :=
  [.main, .main, .timer, .main,
   .main, .main, .main, .main, .main]


/-- A process that runs and ends without error, printing `hello`. -/
def helloProcess : ProcessOutcome :=
  .exited "hello" "hello" none

/-- A configuration with marshal mode on, CGI mode off and no timeout. -/
def marshalConfig : WatchdogConfig :=
  { execTimeout := 0, marshalRequest := true, cgiHeaders := false,
    combineOutput := false, contentType := "", debugHeaders := false, writeDebug := false,
    faasProcess := "qemu" }

/-- A POST request whose body breaks off after three bytes. -/
def brokenBodyRequest : Request :=
  { Method := "POST", Header := [("Content-Type", ["text/plain"])],
    Body := some { data := "par", readErr := some "unexpected EOF" }, ContentLength := 10,
    TransferEncoding := [], RawQuery := "", Path := "/", Host := "example.org" }

/-- A configuration with a content type override, CGI mode off and no timeout. -/
def overrideConfig : WatchdogConfig :=
  { execTimeout := 0, marshalRequest := false, cgiHeaders := false,
    combineOutput := true, contentType := "application/json", debugHeaders := false,
    writeDebug := false, faasProcess := "qemu" }

/-- A configuration without content type override, CGI mode off and no timeout. -/
def plainConfig : WatchdogConfig :=
  { execTimeout := 0, marshalRequest := false, cgiHeaders := false,
    combineOutput := false, contentType := "", debugHeaders := false,
    writeDebug := false, faasProcess := "qemu" }

/-- A POST request with a readable body and the header `Content-Type: text/plain`. -/
def textRequest : Request :=
  { Method := "POST", Header := [("Content-Type", ["text/plain"])],
    Body := some { data := "ping", readErr := none }, ContentLength := 4,
    TransferEncoding := [], RawQuery := "", Path := "/", Host := "example.org" }

/-- A GET request with the header `X-Foo: bar` and a header `X-Empty` bound to an empty slice
of values. -/
def mixedValuesRequest : Request :=
  { Method := "GET", Header := [("X-Foo", ["bar"]), ("X-Empty", [])], Body := none,
    ContentLength := 0, TransferEncoding := [], RawQuery := "", Path := "/",
    Host := "example.org" }

/-- A configuration with a content type override and a five second timeout. -/
def timedOverrideConfig : WatchdogConfig :=
  { execTimeout := 5000000000, marshalRequest := false, cgiHeaders := false,
    combineOutput := false, contentType := "application/json", debugHeaders := false,
    writeDebug := false, faasProcess := "qemu" }

/-! ## Lemmas -/

theorem length_pos_iff_ne_empty (s : String) : s.length > 0 ↔ s ≠ "" := by
  cases s with
  | mk d =>
    cases d with
    | nil => simp [String.length]
    | cons c cs =>
      simp only [String.length, List.length_cons, gt_iff_lt, Nat.zero_lt_succ, true_iff]
      intro h
      exact absurd (congrArg String.data h) (by simp)

theorem rangeHeader_ok (h : HttpHeader) :
    ∀ envs : List String, (∀ kv ∈ h, kv.2 ≠ []) →
      rangeHeader envs h = .ok (envs ++ headerVariables h) := by
  induction h with
  | nil => intro envs _; simp [rangeHeader, headerVariables]
  | cons kv rest ih =>
    intro envs hne
    obtain ⟨k, vs⟩ := kv
    cases vs with
    | nil => exact absurd rfl (hne (k, []) (List.mem_cons_self _ _))
    | cons v0 vs =>
      have hrest : ∀ kv ∈ rest, kv.2 ≠ [] := fun kv hkv => hne kv (List.mem_cons_of_mem _ hkv)
      simp only [rangeHeader, appendHeaderEnv]
      rw [ih _ hrest]
      simp [headerVariables, headerVariable, List.filterMap_cons]

theorem rangeHeader_error (h : HttpHeader) :
    ∀ envs : List String, (∃ kv ∈ h, kv.2 = []) →
      rangeHeader envs h = .error (.indexOutOfRange 0 0) := by
  induction h with
  | nil => intro envs hex; obtain ⟨kv, hkv, _⟩ := hex; cases hkv
  | cons kv rest ih =>
    intro envs hex
    obtain ⟨k, vs⟩ := kv
    cases vs with
    | nil => simp [rangeHeader, appendHeaderEnv]
    | cons v0 vs =>
      simp only [rangeHeader, appendHeaderEnv]
      apply ih
      obtain ⟨kv, hkv, hempty⟩ := hex
      rcases List.mem_cons.mp hkv with heq | hmem
      · subst heq; cases hempty
      · exact ⟨kv, hmem, hempty⟩

theorem headerVariables_take_one (h : HttpHeader) :
    headerVariables (h.map (fun kv => (kv.1, kv.2.take 1))) = headerVariables h := by
  induction h with
  | nil => rfl
  | cons kv rest ih =>
    obtain ⟨k, vs⟩ := kv
    simp only [headerVariables] at ih ⊢
    cases vs with
    | nil => simp [List.filterMap_cons, headerVariable, ih]
    | cons v0 vs => simp [List.filterMap_cons, headerVariable, ih]

theorem getAdditionalEnvs_ok (config : WatchdogConfig) (environ : List String) (r : Request)
    (method : String) (h : config.cgiHeaders = true → ∀ kv ∈ r.Header, kv.2 ≠ []) :
    getAdditionalEnvs config environ r method =
      .ok (getAdditionalEnvsReference config.cgiHeaders environ (headerVariables r.Header)
        method r.ContentLength r.TransferEncoding r.RawQuery r.Path r.Host) := by
  unfold getAdditionalEnvs getAdditionalEnvsReference
  cases hc : config.cgiHeaders with
  | false => simp
  | true =>
    simp only [if_true]
    rw [rangeHeader_ok r.Header environ (h hc)]
    have hq := length_pos_iff_ne_empty r.RawQuery
    have hp := length_pos_iff_ne_empty r.Path
    have hh := length_pos_iff_ne_empty r.Host
    cases hte : r.TransferEncoding <;>
      by_cases h1 : r.RawQuery = "" <;> by_cases h2 : r.Path = "" <;>
      by_cases h3 : r.Host = "" <;> simp [h1, h2, h3, hq, hp, hh]


/-- The function `getAdditionalEnvs` returns a list exactly when CGI mode is off or every
header has at least one value. -/
theorem getAdditionalEnvs_returns_iff (config : WatchdogConfig) (environ : List String)
    (r : Request) (method : String) :
    (∃ envs, getAdditionalEnvs config environ r method = .ok envs) ↔
      (config.cgiHeaders = true → ∀ kv ∈ r.Header, kv.2 ≠ []) := by
  constructor
  · rintro ⟨envs, hok⟩ hcgi
    by_contra hno
    have hex : ∃ kv ∈ r.Header, kv.2 = [] := by
      by_contra hnone
      exact hno (fun kv hkv hnil => hnone ⟨kv, hkv, hnil⟩)
    simp [getAdditionalEnvs, hcgi, rangeHeader_error r.Header environ hex] at hok
  · intro h
    exact ⟨_, getAdditionalEnvs_ok config environ r method h⟩

/-- In marshal mode the error returned by `buildFunctionInput` on a request with a body is the
error of the marshaler, whatever the read returned. -/
theorem buildFunctionInput_marshal_error (MarshalRequest : Marshaler)
    (config : WatchdogConfig) (r : Request) (body : Body)
    (hmode : config.marshalRequest = true) (hbody : r.Body = some body) :
    (buildFunctionInput MarshalRequest config r).2 = (MarshalRequest body.data r.Header).2 := by
  simp [buildFunctionInput, hbody, hmode]

/-! ## The environment projection -/

/-- C10, evaluated on the code: with CGI mode on and a header key bound to an empty slice of
values, `getAdditionalEnvs` does not return a list; the lookup `v[0]` panics with an index out
of range. -/
theorem getAdditionalEnvs_panics_on_empty_values :
    getAdditionalEnvs cgiConfig [] emptyValuesRequest "GET" = .error (.indexOutOfRange 0 0) := by
  rfl

/-- C7 as stated fails: for the header `X-Foo: bar` with CGI mode on, the list returned is
the one shown, and the variable with the uppercased name, `Http_X_FOO=bar`, is not in it. -/
theorem getAdditionalEnvs_name_not_uppercased :
    getAdditionalEnvs cgiConfig [] fooRequest "GET" =
        .ok ["Http_X_Foo=bar", "Http_Method=GET", "Http_ContentLength=0",
          "Http_Content_Length=0", "Http_Query=a=1", "Http_Path=/", "Http_Host=example.org"] ∧
      ("Http_" ++ stringsToUpper (replaceHyphens "X-Foo") ++ "=" ++ "bar") ∉
        ["Http_X_Foo=bar", "Http_Method=GET", "Http_ContentLength=0",
          "Http_Content_Length=0", "Http_Query=a=1", "Http_Path=/", "Http_Host=example.org"] := by
  refine ⟨rfl, ?_⟩
  decide

/-- C7, amended: with CGI mode on, whenever `getAdditionalEnvs` returns a list, that list
contains for every header with at least one value the variable `Http_` followed by the header
name with every hyphen replaced by an underscore and its letter case unchanged, with the first
value as its value; a list is returned whenever every header has a value; and the result does
not depend on the values after the first. -/
theorem getAdditionalEnvs_header_variable (config : WatchdogConfig) (environ : List String)
    (r : Request) (method : String) (hcgi : config.cgiHeaders = true) :
    (∀ envs, getAdditionalEnvs config environ r method = .ok envs →
        ∀ k v vs, (k, v :: vs) ∈ r.Header →
          ("Http_" ++ replaceHyphens k ++ "=" ++ v) ∈ envs) ∧
      ((∀ kv ∈ r.Header, kv.2 ≠ []) →
        ∃ envs, getAdditionalEnvs config environ r method = .ok envs) ∧
      getAdditionalEnvs config environ
          { r with Header := r.Header.map (fun kv => (kv.1, kv.2.take 1)) } method =
        getAdditionalEnvs config environ r method := by
  refine ⟨?_, ?_, ?_⟩
  · intro envs hok k v vs hmem
    by_cases hall : ∀ kv ∈ r.Header, kv.2 ≠ []
    · rw [getAdditionalEnvs_ok config environ r method (fun _ => hall)] at hok
      injection hok with hok
      subst hok
      have hvar : ("Http_" ++ replaceHyphens k ++ "=" ++ v) ∈ headerVariables r.Header := by
        unfold headerVariables
        exact List.mem_filterMap.mpr ⟨(k, v :: vs), hmem, rfl⟩
      simp [getAdditionalEnvsReference, hcgi, hvar]
    · exfalso
      have hex : ∃ kv ∈ r.Header, kv.2 = [] := by
        by_contra hno
        exact hall (fun kv hkv hnil => hno ⟨kv, hkv, hnil⟩)
      have herr := rangeHeader_error r.Header environ hex
      simp [getAdditionalEnvs, hcgi, herr] at hok
  · intro hall
    exact ⟨_, getAdditionalEnvs_ok config environ r method (fun _ => hall)⟩
  · by_cases hall : ∀ kv ∈ r.Header, kv.2 ≠ []
    · have hall2 : ∀ kv ∈ r.Header.map (fun kv => (kv.1, kv.2.take 1)), kv.2 ≠ [] := by
        intro kv hkv
        obtain ⟨kv0, hkv0, rfl⟩ := List.mem_map.mp hkv
        have := hall kv0 hkv0
        cases h2 : kv0.2 with
        | nil => exact absurd h2 this
        | cons a as => simp
      rw [getAdditionalEnvs_ok config environ r method (fun _ => hall),
        getAdditionalEnvs_ok config environ _ method (fun _ => hall2)]
      simp [headerVariables_take_one]
    · have hex : ∃ kv ∈ r.Header, kv.2 = [] := by
        by_contra hno
        exact hall (fun kv hkv hnil => hno ⟨kv, hkv, hnil⟩)
      have hex2 : ∃ kv ∈ r.Header.map (fun kv => (kv.1, kv.2.take 1)), kv.2 = [] := by
        obtain ⟨kv, hkv, hnil⟩ := hex
        exact ⟨(kv.1, kv.2.take 1), List.mem_map.mpr ⟨kv, hkv, rfl⟩, by simp [hnil]⟩
      simp [getAdditionalEnvs, hcgi, rangeHeader_error _ environ hex,
        rangeHeader_error _ environ hex2]

/-- Witness for C7, amended: the request with the header `X-Foo: bar, baz`. -/
theorem getAdditionalEnvs_header_variable_witness :
    cgiConfig.cgiHeaders = true ∧
      ((∀ envs, getAdditionalEnvs cgiConfig [] fooRequest "GET" = .ok envs →
          ∀ k v vs, (k, v :: vs) ∈ fooRequest.Header →
            ("Http_" ++ replaceHyphens k ++ "=" ++ v) ∈ envs) ∧
        ((∀ kv ∈ fooRequest.Header, kv.2 ≠ []) →
          ∃ envs, getAdditionalEnvs cgiConfig [] fooRequest "GET" = .ok envs) ∧
        getAdditionalEnvs cgiConfig []
            { fooRequest with
              Header := fooRequest.Header.map (fun kv => (kv.1, kv.2.take 1)) } "GET" =
          getAdditionalEnvs cgiConfig [] fooRequest "GET") :=
  ⟨rfl, getAdditionalEnvs_header_variable cgiConfig [] fooRequest "GET" rfl⟩


/-! ## Runs of pipeRequest -/

theorem pipeRequest_translation_error (MarshalRequest : Marshaler) (os : OsEnv)
    (proc : ProcessOutcome) (schedule : List Tick) (duration : String)
    (config : WatchdogConfig) (w : ResponseRecorder) (r : Request) (method : String)
    (e : String) (hbuild : (buildFunctionInput MarshalRequest config r).2 = some e) :
    pipeRequest MarshalRequest os proc schedule duration config w r method =
      { state := translationErrorPath e "" (RunState.initial w), cmd := none,
        panicked := none } := by
  unfold pipeRequest
  rcases hbf : buildFunctionInput MarshalRequest config r with ⟨b, be⟩
  rw [hbf] at hbuild
  simp only at hbuild
  subst hbuild
  rfl

theorem pipeRequest_spawned (MarshalRequest : Marshaler) (os : OsEnv)
    (proc : ProcessOutcome) (schedule : List Tick) (duration : String)
    (config : WatchdogConfig) (w : ResponseRecorder) (r : Request) (method : String)
    (envs : List String)
    (hbuild : (buildFunctionInput MarshalRequest config r).2 = none)
    (henvs : getAdditionalEnvs config os.environ r method = .ok envs) :
    pipeRequest MarshalRequest os proc schedule duration config w r method =
      { state := ((Machine.spawn config r duration proc w).complete schedule).shared,
        cmd := some { Path := "/usr/bin/qemu-system-x86_64", Args := commandArgs os,
                      Env := if envs.length > 0 then some envs else none },
        panicked := deferredClose os
          ((Machine.spawn config r duration proc w).complete schedule).panicked } := by
  unfold pipeRequest
  rcases hbf : buildFunctionInput MarshalRequest config r with ⟨b, be⟩
  rw [hbf] at hbuild
  simp only at hbuild
  subst hbuild
  simp only [henvs]

theorem pipeRequest_panic (MarshalRequest : Marshaler) (os : OsEnv)
    (proc : ProcessOutcome) (schedule : List Tick) (duration : String)
    (config : WatchdogConfig) (w : ResponseRecorder) (r : Request) (method : String)
    (p : Panic) (hbuild : (buildFunctionInput MarshalRequest config r).2 = none)
    (henvs : getAdditionalEnvs config os.environ r method = .error p) :
    pipeRequest MarshalRequest os proc schedule duration config w r method =
      { state := RunState.initial w, cmd := none,
        panicked := deferredClose os (some p) } := by
  unfold pipeRequest
  rcases hbf : buildFunctionInput MarshalRequest config r with ⟨b, be⟩
  rw [hbf] at hbuild
  simp only at hbuild
  subst hbuild
  simp only [henvs]

/-- A process is spawned exactly when the input is built and the environment is computed. -/
theorem pipeRequest_cmd_isSome (MarshalRequest : Marshaler) (os : OsEnv)
    (proc : ProcessOutcome) (schedule : List Tick) (duration : String)
    (config : WatchdogConfig) (w : ResponseRecorder) (r : Request) (method : String)
    (hspawn : (pipeRequest MarshalRequest os proc schedule duration config w r
      method).cmd ≠ none) :
    (buildFunctionInput MarshalRequest config r).2 = none ∧
      ∃ envs, getAdditionalEnvs config os.environ r method = .ok envs := by
  cases hb : (buildFunctionInput MarshalRequest config r).2 with
  | some e =>
    rw [pipeRequest_translation_error MarshalRequest os proc schedule duration config w r
      method e hb] at hspawn
    exact absurd rfl hspawn
  | none =>
    cases he : getAdditionalEnvs config os.environ r method with
    | error p =>
      rw [pipeRequest_panic MarshalRequest os proc schedule duration config w r method p hb he]
        at hspawn
      exact absurd rfl hspawn
    | ok envs => exact ⟨rfl, envs, rfl⟩

theorem empty_append (s : String) : "" ++ s = s := by
  cases s; rfl

theorem lookup_Set_self (h : HttpHeader) (key value : String) :
    (h.Set key value).lookup key = some [value] := by
  induction h with
  | nil => simp [HttpHeader.Set, List.lookup]
  | cons kv rest ih =>
    obtain ⟨k, vs⟩ := kv
    by_cases hk : k = key
    · simp [HttpHeader.Set, hk, List.lookup]
    · have hne : (key == k) = false := by
        simp only [beq_eq_false_iff_ne, ne_eq]
        exact fun h => hk h.symm
      simp [HttpHeader.Set, hk, List.lookup, hne, ih]

theorem lookup_Set_other (h : HttpHeader) (key other value : String) (hne : other ≠ key) :
    (h.Set key value).lookup other = h.lookup other := by
  induction h with
  | nil =>
    have hb : (other == key) = false := by simpa using hne
    simp [HttpHeader.Set, List.lookup, hb]
  | cons kv rest ih =>
    obtain ⟨k, vs⟩ := kv
    by_cases hk : k = key
    · have hb : (other == key) = false := by simpa using hne
      subst hk
      simp [HttpHeader.Set, List.lookup, hb]
    · by_cases ho : other = k
      · subst ho
        simp [HttpHeader.Set, hk, List.lookup]
      · have hb : (other == k) = false := by simpa using ho
        simp [HttpHeader.Set, hk, List.lookup, hb, ih]

/-! ## The headers sent, under every schedule -/

theorem tick_main_nil (m : Machine) (hm : m.main = []) : m.tick .main = m := by
  cases m with
  | mk shared main timer panicked =>
    simp only at hm
    subst hm
    rfl

theorem tick_main_cons (m : Machine) (i : Instr) (rest : List Instr) (hm : m.main = i :: rest) :
    (m.tick .main).shared = (i.run m.shared).1 ∧
      (m.tick .main).main = (if (i.run m.shared).2.1 then rest else []) ∧
      (m.tick .main).timer = m.timer := by
  rcases hrun : i.run m.shared with ⟨s1, goOn, p⟩
  simp [Machine.tick, stepPath, hm, hrun]

theorem tick_timer_cons (m : Machine) (i : Instr) (rest : List Instr)
    (hm : m.timer = some (i :: rest)) :
    (m.tick .timer).shared = (i.run m.shared).1 ∧
      (m.tick .timer).timer = some (if (i.run m.shared).2.1 then rest else []) ∧
      (m.tick .timer).main = m.main := by
  rcases hrun : i.run m.shared with ⟨s1, goOn, p⟩
  simp [Machine.tick, stepPath, hm, hrun]

theorem run_calls (i : Instr) (s : RunState) :
    ∀ c ∈ (i.run s).1.w.writeHeaderCalls,
      c ∈ s.w.writeHeaderCalls ∨ ∃ code, i = .WriteHeader code ∧ c = (code, s.w.header) := by
  intro c hc
  cases i <;>
    simp only [Instr.run, ResponseRecorder.WriteHeader, ResponseRecorder.Write,
      ResponseRecorder.SetHeader] at hc
  case processStateSuccess =>
    split at hc <;> exact Or.inl hc
  case WriteHeader code =>
    rcases List.mem_append.mp hc with h | h
    · exact Or.inl h
    · exact Or.inr ⟨code, rfl, by simpa using h⟩
  all_goals exact Or.inl hc

theorem run_future (i : Instr) (s : RunState) (rest : List Instr) :
    ∀ h ∈ futureSnapshots (if (i.run s).2.1 then rest else []) (i.run s).1.w.header,
      h ∈ futureSnapshots (i :: rest) s.w.header := by
  intro h hh
  cases i <;>
    simp only [Instr.run, ResponseRecorder.WriteHeader, ResponseRecorder.Write,
      ResponseRecorder.SetHeader, futureSnapshots, if_true] at hh ⊢
  case processStateSuccess =>
    split at hh
    · simpa using hh
    · simp [futureSnapshots] at hh
  case unlessHeaderWritten =>
    split at hh
    · exact hh
    · simp [futureSnapshots] at hh
  case ifProcess =>
    split at hh
    · exact hh
    · simp [futureSnapshots] at hh
  case WriteHeader code =>
    exact List.mem_cons_of_mem _ hh
  all_goals exact hh

theorem run_header_quiet (i : Instr) (s : RunState) (hq : i.quiet = true) :
    (i.run s).1.w.header = s.w.header := by
  cases i <;>
    simp only [Instr.run, ResponseRecorder.WriteHeader, ResponseRecorder.Write, Instr.quiet]
      at hq ⊢
  case processStateSuccess => split <;> rfl
  case HeaderSet key value => exact absurd hq (by decide)

theorem sendsOnly_tick (H : HttpHeader) (m : Machine) (t : Tick) (h : sendsOnly H m) :
    sendsOnly H (m.tick t) := by
  obtain ⟨hcalls, hfuture, hquiet⟩ := h
  cases t with
  | main =>
    cases hm : m.main with
    | nil =>
      rw [tick_main_nil m hm]
      exact ⟨hcalls, hfuture, hquiet⟩
    | cons i rest =>
      obtain ⟨hs, hmain, htimer⟩ := tick_main_cons m i rest hm
      rw [hm] at hfuture
      refine ⟨?_, ?_, ?_⟩
      · intro c hc h200
        rw [hs] at hc
        rcases run_calls i m.shared c hc with hold | ⟨code, hi, hceq⟩
        · exact hcalls c hold h200
        · subst hi
          rw [hceq]
          exact hfuture _ (by simp [futureSnapshots])
      · intro h hh
        rw [hs, hmain] at hh
        exact hfuture h (run_future i m.shared rest h hh)
      · intro body hbody
        rw [htimer] at hbody
        exact hquiet body hbody
  | timer =>
    cases hm : m.timer with
    | none =>
      by_cases harmed : m.shared.timerArmed = true
      · have htick : m.tick .timer =
            { m with shared := { m.shared with timerArmed := false },
                     timer := some timeoutCallback } := by
          simp [Machine.tick, hm, harmed]
        rw [htick]
        refine ⟨hcalls, hfuture, ?_⟩
        intro body hbody
        simp only [Option.some.injEq] at hbody
        subst hbody
        decide
      · have htick : m.tick .timer = m := by
          simp [Machine.tick, hm, harmed]
        rw [htick]
        exact ⟨hcalls, hfuture, hquiet⟩
    | some body =>
      cases hb : body with
      | nil =>
        subst hb
        have htick : m.tick .timer = m := by
          cases m with
          | mk shared main timer panicked =>
            simp only at hm
            subst hm
            rfl
        rw [htick]
        exact ⟨hcalls, hfuture, hquiet⟩
      | cons i rest =>
        subst hb
        obtain ⟨hs, htimer, hmain⟩ := tick_timer_cons m i rest hm
        have hqi : i.quiet = true := hquiet _ hm i (List.mem_cons_self _ _)
        refine ⟨?_, ?_, ?_⟩
        · intro c hc h200
          rw [hs] at hc
          rcases run_calls i m.shared c hc with hold | ⟨code, hi, hceq⟩
          · exact hcalls c hold h200
          · subst hi
            rw [hceq] at h200
            simp only at h200
            subst h200
            exact absurd hqi (by decide)
        · intro h hh
          rw [hs, hmain, run_header_quiet i m.shared hqi] at hh
          exact hfuture h hh
        · intro body2 hbody2
          rw [htimer] at hbody2
          simp only [Option.some.injEq] at hbody2
          subst hbody2
          intro j hj
          split at hj
          · exact hquiet _ hm j (List.mem_cons_of_mem _ hj)
          · cases hj

theorem sendsOnly_runSchedule (H : HttpHeader) (schedule : List Tick) :
    ∀ m : Machine, sendsOnly H m → sendsOnly H (m.runSchedule schedule) := by
  induction schedule with
  | nil => intro m h; exact h
  | cons t rest ih =>
    intro m h
    exact ih (m.tick t) (sendsOnly_tick H m t h)

theorem sendsOnly_complete (H : HttpHeader) (m : Machine) (schedule : List Tick)
    (h : sendsOnly H m) : sendsOnly H (m.complete schedule) :=
  sendsOnly_runSchedule H _ m h

theorem sendsOnly_spawn (config : WatchdogConfig) (r : Request) (duration : String)
    (proc : ProcessOutcome) (herr : proc.err = none) :
    sendsOnly (completionHeader config r duration)
      (Machine.spawn config r duration proc ResponseRecorder.new) := by
  refine ⟨?_, ?_, ?_⟩
  · intro c hc
    simp [Machine.spawn, RunState.initial, ResponseRecorder.new] at hc
  · intro h hh
    simp only [Machine.spawn, RunState.initial, ResponseRecorder.new, mainPath, herr,
      completionPath, completionHeader] at hh ⊢
    by_cases ht : config.execTimeout > 0 <;>
      by_cases h1 : config.contentType.length > 0 <;>
      by_cases h2 : (r.Header.Get "Content-Type").length > 0 <;>
      simp [ht, h1, h2, futureSnapshots] at hh ⊢ <;> exact hh
  · intro body hbody
    simp [Machine.spawn] at hbody

theorem sentHeader_of_status (w : ResponseRecorder) (H : HttpHeader)
    (hcalls : ∀ c ∈ w.writeHeaderCalls, c.1 = 200 → c.2 = H) (hstatus : w.status = some 200) :
    w.sentHeader = H := by
  unfold ResponseRecorder.status at hstatus
  unfold ResponseRecorder.sentHeader
  cases hw : w.writeHeaderCalls with
  | nil => rw [hw] at hstatus; simp at hstatus
  | cons c rest =>
    rw [hw] at hstatus hcalls
    obtain ⟨code, h⟩ := c
    simp only [List.head?_cons, Option.map_some', Option.some.injEq] at hstatus
    exact hcalls (code, h) (List.mem_cons_self _ _) hstatus

/-- C5: on a response whose status line is the 200 of a completion without error, under every
schedule of the goroutines, the `Content-Type` sent is `config.contentType` when that is
non-empty, whatever the request says; else the `Content-Type` of the request when that is
non-empty; else none is set. -/
theorem completion_content_type (MarshalRequest : Marshaler) (os : OsEnv)
    (proc : ProcessOutcome) (schedule : List Tick) (duration : String)
    (config : WatchdogConfig) (r : Request) (method : String)
    (hspawn : (pipeRequest MarshalRequest os proc schedule duration config
      ResponseRecorder.new r method).cmd ≠ none)
    (hstatus : (pipeRequest MarshalRequest os proc schedule duration config
      ResponseRecorder.new r method).state.w.status = some 200)
    (herr : proc.err = none) :
    (config.contentType ≠ "" →
        (pipeRequest MarshalRequest os proc schedule duration config ResponseRecorder.new r
          method).state.w.sentHeader.lookup "Content-Type" = some [config.contentType]) ∧
      (config.contentType = "" → r.Header.Get "Content-Type" ≠ "" →
        (pipeRequest MarshalRequest os proc schedule duration config ResponseRecorder.new r
          method).state.w.sentHeader.lookup "Content-Type" =
            some [r.Header.Get "Content-Type"]) ∧
      (config.contentType = "" → r.Header.Get "Content-Type" = "" →
        (pipeRequest MarshalRequest os proc schedule duration config ResponseRecorder.new r
          method).state.w.sentHeader.lookup "Content-Type" = none) := by
  obtain ⟨hbuild, envs, henvs⟩ := pipeRequest_cmd_isSome _ _ _ _ _ _ _ _ _ hspawn
  rw [pipeRequest_spawned MarshalRequest os _ _ duration config _ r method envs hbuild henvs]
    at hstatus ⊢
  simp only at hstatus ⊢
  have hinv := sendsOnly_complete (completionHeader config r duration) _ schedule
    (sendsOnly_spawn config r duration proc herr)
  rw [sentHeader_of_status _ _ hinv.1 hstatus]
  have hkey : ("Content-Type" : String) ≠ "X-Duration-Seconds" := by decide
  unfold completionHeader
  rw [lookup_Set_other _ _ _ _ hkey]
  refine ⟨?_, ?_, ?_⟩
  · intro hct
    have h1 : config.contentType.length > 0 := (length_pos_iff_ne_empty _).mpr hct
    simp [h1, lookup_Set_self]
  · intro hct hreq
    have h1 : ¬ config.contentType.length > 0 := fun h => (length_pos_iff_ne_empty _).mp h hct
    have h2 : (r.Header.Get "Content-Type").length > 0 := (length_pos_iff_ne_empty _).mpr hreq
    simp [h1, h2, lookup_Set_self]
  · intro hct hreq
    have h1 : ¬ config.contentType.length > 0 := fun h => (length_pos_iff_ne_empty _).mp h hct
    have h2 : ¬ (r.Header.Get "Content-Type").length > 0 :=
      fun h => (length_pos_iff_ne_empty _).mp h hreq
    simp [h1, h2]


/-- Witness for C5: an override with a request content type, a request content type alone,
neither of the two, and an override under a schedule in which the callback writes after the
completion path. -/
theorem completion_content_type_witness :
    ((pipeRequest wrapMarshaler plainOs helloProcess [] "0.1" overrideConfig
        ResponseRecorder.new textRequest "POST").cmd ≠ none ∧
      (pipeRequest wrapMarshaler plainOs helloProcess [] "0.1" overrideConfig
        ResponseRecorder.new textRequest "POST").state.w.status = some 200 ∧
      helloProcess.err = none ∧
      (pipeRequest wrapMarshaler plainOs helloProcess [] "0.1" overrideConfig
        ResponseRecorder.new textRequest "POST").state.w.sentHeader.lookup "Content-Type" =
          some ["application/json"]) ∧
      (pipeRequest wrapMarshaler plainOs helloProcess [] "0.1" plainConfig
        ResponseRecorder.new textRequest "POST").state.w.sentHeader.lookup "Content-Type" =
          some ["text/plain"] ∧
      (pipeRequest wrapMarshaler plainOs helloProcess [] "0.1" plainConfig
        ResponseRecorder.new fooRequest "GET").state.w.sentHeader.lookup "Content-Type" =
          none ∧
      (pipeRequest wrapMarshaler plainOs helloProcess firedBeforeStop "5.0" timedOverrideConfig
        ResponseRecorder.new textRequest "POST").state.w.codes = [200, 408] ∧
      (pipeRequest wrapMarshaler plainOs helloProcess firedBeforeStop "5.0" timedOverrideConfig
        ResponseRecorder.new textRequest "POST").state.w.sentHeader.lookup "Content-Type" =
          some ["application/json"] :=
  ⟨⟨by decide, by decide, rfl,
      (completion_content_type wrapMarshaler plainOs helloProcess [] "0.1" overrideConfig
        textRequest "POST" (by decide) (by decide) rfl).1 (by decide)⟩,
    (completion_content_type wrapMarshaler plainOs helloProcess [] "0.1" plainConfig
      textRequest "POST" (by decide) (by decide) rfl).2.1 rfl (by decide),
    (completion_content_type wrapMarshaler plainOs helloProcess [] "0.1" plainConfig
      fooRequest "GET" (by decide) (by decide) rfl).2.2 rfl rfl,
    by decide,
    (completion_content_type wrapMarshaler plainOs helloProcess firedBeforeStop "5.0"
      timedOverrideConfig textRequest "POST" (by decide) (by decide) rfl).1 (by decide)⟩

/-! ## Runs without a timer -/

theorem tick_timer_idle (m : Machine) (h1 : m.timer = none)
    (h2 : m.shared.timerArmed = false) : m.tick .timer = m := by
  simp [Machine.tick, h1, h2]

theorem run_timerArmed (i : Instr) (s : RunState) (h : s.timerArmed = false) :
    (i.run s).1.timerArmed = false := by
  cases i <;> simp only [Instr.run] <;> first | exact h | rfl | (split <;> exact h)

theorem tick_main_idle (m : Machine) (h1 : m.timer = none)
    (h2 : m.shared.timerArmed = false) :
    (m.tick .main).timer = none ∧ (m.tick .main).shared.timerArmed = false := by
  cases hm : m.main with
  | nil => rw [tick_main_nil m hm]; exact ⟨h1, h2⟩
  | cons i rest =>
    obtain ⟨hs, _, ht⟩ := tick_main_cons m i rest hm
    exact ⟨ht.trans h1, by rw [hs]; exact run_timerArmed i m.shared h2⟩

theorem tick_main_length (m : Machine) : (m.tick .main).main.length ≤ m.main.length - 1 := by
  cases hm : m.main with
  | nil => rw [tick_main_nil m hm, hm]; simp
  | cons i rest =>
    obtain ⟨_, hmain, _⟩ := tick_main_cons m i rest hm
    rw [hmain]
    split <;> simp

theorem runSchedule_append (m : Machine) (a b : List Tick) :
    m.runSchedule (a ++ b) = (m.runSchedule a).runSchedule b := by
  simp [Machine.runSchedule, List.foldl_append]

theorem runSchedule_main_done (n : Nat) :
    ∀ m : Machine, m.main = [] → m.runSchedule (List.replicate n Tick.main) = m := by
  induction n with
  | zero => intro m _; rfl
  | succ n ih =>
    intro m hm
    have h1 : m.runSchedule (List.replicate (n + 1) Tick.main) =
        (m.tick .main).runSchedule (List.replicate n Tick.main) := rfl
    rw [h1, tick_main_nil m hm]
    exact ih m hm

theorem runSchedule_main_finishes (n : Nat) :
    ∀ m : Machine, m.main.length ≤ n →
      (m.runSchedule (List.replicate n Tick.main)).main = [] := by
  induction n with
  | zero =>
    intro m hm
    exact List.length_eq_zero.mp (Nat.le_zero.mp hm)
  | succ n ih =>
    intro m hm
    have h1 : m.runSchedule (List.replicate (n + 1) Tick.main) =
        (m.tick .main).runSchedule (List.replicate n Tick.main) := rfl
    rw [h1]
    apply ih
    have := tick_main_length m
    omega

theorem runSchedule_idle (schedule : List Tick) :
    ∀ m : Machine, m.timer = none → m.shared.timerArmed = false →
      ∃ k, m.runSchedule schedule = m.runSchedule (List.replicate k Tick.main) ∧
        (m.runSchedule schedule).timer = none ∧
        (m.runSchedule schedule).shared.timerArmed = false := by
  induction schedule with
  | nil => intro m h1 h2; exact ⟨0, rfl, h1, h2⟩
  | cons t rest ih =>
    intro m h1 h2
    cases t with
    | main =>
      obtain ⟨h3, h4⟩ := tick_main_idle m h1 h2
      obtain ⟨k, hk, hk1, hk2⟩ := ih (m.tick .main) h3 h4
      exact ⟨k + 1, hk, hk1, hk2⟩
    | timer =>
      have hstep : m.runSchedule (Tick.timer :: rest) = m.runSchedule rest := by
        show (m.tick .timer).runSchedule rest = m.runSchedule rest
        rw [tick_timer_idle m h1 h2]
      rw [hstep]
      exact ih m h1 h2

theorem runSchedule_replicate_add (m : Machine) (a b : Nat) :
    m.runSchedule (List.replicate (a + b) Tick.main) =
      (m.runSchedule (List.replicate a Tick.main)).runSchedule (List.replicate b Tick.main) := by
  rw [← runSchedule_append, List.replicate_add]

/-- Without a timer the schedule does not matter: every run is the run of the main path. -/
theorem complete_idle (m : Machine) (schedule : List Tick) (h1 : m.timer = none)
    (h2 : m.shared.timerArmed = false) :
    m.complete schedule = m.runSchedule (List.replicate m.main.length Tick.main) := by
  unfold Machine.complete
  rw [runSchedule_append, runSchedule_append]
  obtain ⟨k, hk, hk1, hk2⟩ := runSchedule_idle schedule m h1 h2
  have hdone : (m.runSchedule (List.replicate m.main.length Tick.main)).main = [] :=
    runSchedule_main_finishes _ m (Nat.le_refl _)
  have hmain : (m.runSchedule schedule).runSchedule (List.replicate m.main.length Tick.main) =
      m.runSchedule (List.replicate m.main.length Tick.main) := by
    rw [hk, ← runSchedule_replicate_add, Nat.add_comm, runSchedule_replicate_add]
    exact runSchedule_main_done k _ hdone
  rw [hmain]
  obtain ⟨j, hj, hj1, hj2⟩ := runSchedule_idle (List.replicate m.main.length Tick.main) m h1 h2
  obtain ⟨i, hi, _, _⟩ := runSchedule_idle (List.replicate (timeoutCallback.length + 1) Tick.timer)
    (m.runSchedule (List.replicate m.main.length Tick.main)) hj1 hj2
  rw [hi]
  exact runSchedule_main_done i _ hdone

/-- When `execTimeout` is not positive no timer is created, and `pipeRequest` does the same
under every schedule. -/
theorem pipeRequest_without_timer (MarshalRequest : Marshaler) (os : OsEnv)
    (proc : ProcessOutcome) (schedule : List Tick) (duration : String)
    (config : WatchdogConfig) (w : ResponseRecorder) (r : Request) (method : String)
    (htimeout : ¬ config.execTimeout > 0) :
    pipeRequest MarshalRequest os proc schedule duration config w r method =
      pipeRequest MarshalRequest os proc [] duration config w r method := by
  have hidle : (Machine.spawn config r duration proc w).complete schedule =
      (Machine.spawn config r duration proc w).complete [] := by
    rw [complete_idle _ schedule rfl (by simp [Machine.spawn, htimeout]),
      complete_idle _ [] rfl (by simp [Machine.spawn, htimeout])]
  unfold pipeRequest
  simp only [hidle]


/-! ## The response of pipeRequest -/

/-- C1, evaluated on the code: with CGI mode on and a header key bound to an empty slice of
values, `pipeRequest` panics in `getAdditionalEnvs` before any write: for every process
outcome and every schedule it calls `WriteHeader` zero times, writes nothing and spawns no
process. -/
theorem pipeRequest_no_response_on_empty_values (proc : ProcessOutcome)
    (schedule : List Tick) :
    (pipeRequest wrapMarshaler plainOs proc schedule "0.1" cgiConfig ResponseRecorder.new
        emptyValuesRequest "GET").state.w.writeHeaderCalls = [] ∧
      (pipeRequest wrapMarshaler plainOs proc schedule "0.1" cgiConfig ResponseRecorder.new
        emptyValuesRequest "GET").state.w.writes = [] ∧
      (pipeRequest wrapMarshaler plainOs proc schedule "0.1" cgiConfig ResponseRecorder.new
        emptyValuesRequest "GET").cmd = none ∧
      (pipeRequest wrapMarshaler plainOs proc schedule "0.1" cgiConfig ResponseRecorder.new
        emptyValuesRequest "GET").panicked = some (.indexOutOfRange 0 0) := by
  rw [pipeRequest_panic wrapMarshaler plainOs proc schedule "0.1" cgiConfig
    ResponseRecorder.new emptyValuesRequest "GET" (.indexOutOfRange 0 0) rfl rfl]
  exact ⟨rfl, rfl, rfl, rfl⟩

/-- C3, evaluated on the code: in marshal mode, for a body whose read breaks off with an error,
`buildFunctionInput` returns the envelope of the bytes read and a nil error, and `pipeRequest`
spawns the process and answers 200 with its output, not 400. -/
theorem read_error_lost_in_marshal_mode :
    buildFunctionInput wrapMarshaler marshalConfig brokenBodyRequest = ("[par]", none) ∧
      (pipeRequest wrapMarshaler plainOs helloProcess [] "0.1" marshalConfig
        ResponseRecorder.new brokenBodyRequest "POST").cmd ≠ none ∧
      (pipeRequest wrapMarshaler plainOs helloProcess [] "0.1" marshalConfig
        ResponseRecorder.new brokenBodyRequest "POST").state.w.codes = [200] ∧
      (pipeRequest wrapMarshaler plainOs helloProcess [] "0.1" marshalConfig
        ResponseRecorder.new brokenBodyRequest "POST").state.w.body = "hello" := by
  refine ⟨rfl, by decide, rfl, rfl⟩

/-- Without marshal mode, a body that cannot be read to completion makes `buildFunctionInput`
return the read error, and `pipeRequest` answers 400 with the error text and a newline as
body, without spawning a process. -/
theorem read_error_without_marshal_mode (MarshalRequest : Marshaler) (os : OsEnv)
    (proc : ProcessOutcome) (schedule : List Tick) (duration : String)
    (config : WatchdogConfig) (r : Request) (method : String) (body : Body) (e : String)
    (hmode : config.marshalRequest = false) (hbody : r.Body = some body)
    (hread : body.readErr = some e) :
    (buildFunctionInput MarshalRequest config r).2 = some e ∧
      (pipeRequest MarshalRequest os proc schedule duration config ResponseRecorder.new r
        method).state.w.codes = [400] ∧
      (pipeRequest MarshalRequest os proc schedule duration config ResponseRecorder.new r
        method).state.w.body = e ++ "\n" ∧
      (pipeRequest MarshalRequest os proc schedule duration config ResponseRecorder.new r
        method).cmd = none := by
  have hb : (buildFunctionInput MarshalRequest config r).2 = some e := by
    simp [buildFunctionInput, hbody, hmode, hread]
  rw [pipeRequest_translation_error MarshalRequest os proc schedule duration config _ r
    method e hb]
  refine ⟨hb, rfl, ?_, rfl⟩
  simp [translationErrorPath, RunState.initial, ResponseRecorder.body,
    ResponseRecorder.WriteHeader, ResponseRecorder.Write, ResponseRecorder.new, empty_append]

/-- C9, evaluated on the code: the timeout callback does not read `headerWritten`.  In the
run in which the timer fires just before `timer.Stop()`, the completion path has answered 200
and set the flag, and the process handle is set, when the body of the callback starts; the
callback still calls `WriteHeader`, with status 408, and `Write`, and calls `Process.Kill`. -/
theorem timeoutCallback_ignores_headerWritten :
    ((Machine.spawn cgiConfig fooRequest "5.0" helloProcess ResponseRecorder.new).runSchedule
        firedBeforeStop).timer = some timeoutCallback ∧
      ((Machine.spawn cgiConfig fooRequest "5.0" helloProcess ResponseRecorder.new).runSchedule
        firedBeforeStop).shared.ri.headerWritten = true ∧
      ((Machine.spawn cgiConfig fooRequest "5.0" helloProcess ResponseRecorder.new).runSchedule
        firedBeforeStop).shared.processStarted = true ∧
      ((Machine.spawn cgiConfig fooRequest "5.0" helloProcess ResponseRecorder.new).runSchedule
        firedBeforeStop).shared.w.codes = [200] ∧
      (pipeRequest wrapMarshaler plainOs helloProcess firedBeforeStop "5.0" cgiConfig
        ResponseRecorder.new fooRequest "GET").state.w.codes = [200, 408] ∧
      (pipeRequest wrapMarshaler plainOs helloProcess firedBeforeStop "5.0" cgiConfig
        ResponseRecorder.new fooRequest "GET").state.w.writes =
          ["hello", "Killed process.\n"] ∧
      (pipeRequest wrapMarshaler plainOs helloProcess firedBeforeStop "5.0" cgiConfig
        ResponseRecorder.new fooRequest "GET").state.kills = 1 := by
  refine ⟨by decide, by decide, by decide, by decide, by decide, by decide, by decide⟩

/-- C2, evaluated on the code: the timer fires while the spawned process runs and the callback
finds the process handle set; the process then ends without error before the callback has
set `headerWritten`, and the completion path, which finds the flag false, answers 200 with
the output.  The callback then writes as well: the status line of the response is 200, not
408, the body is the output followed by `Killed process.`, and the calls are 200, then 408. -/
theorem timeout_while_running_answers_200 :
    cgiConfig.execTimeout > 0 ∧
      ((Machine.spawn cgiConfig fooRequest "5.0" helloProcess ResponseRecorder.new).runSchedule
        [.main, .timer, .timer]).timer = some (timeoutCallback.drop 1) ∧
      ((Machine.spawn cgiConfig fooRequest "5.0" helloProcess ResponseRecorder.new).runSchedule
        [.main, .timer, .timer]).shared.processStarted = true ∧
      ((Machine.spawn cgiConfig fooRequest "5.0" helloProcess ResponseRecorder.new).runSchedule
        [.main, .timer, .timer]).shared.processFinished = false ∧
      ((Machine.spawn cgiConfig fooRequest "5.0" helloProcess ResponseRecorder.new).runSchedule
        [.main, .timer, .timer]).shared.ri.headerWritten = false ∧
      (pipeRequest wrapMarshaler plainOs helloProcess firedWhileRunning "5.0" cgiConfig
        ResponseRecorder.new fooRequest "GET").state.w.status = some 200 ∧
      (pipeRequest wrapMarshaler plainOs helloProcess firedWhileRunning "5.0" cgiConfig
        ResponseRecorder.new fooRequest "GET").state.w.codes = [200, 408] ∧
      (pipeRequest wrapMarshaler plainOs helloProcess firedWhileRunning "5.0" cgiConfig
        ResponseRecorder.new fooRequest "GET").state.w.writes =
          ["hello", "Killed process.\n"] ∧
      (pipeRequest wrapMarshaler plainOs helloProcess firedWhileRunning "5.0" cgiConfig
        ResponseRecorder.new fooRequest "GET").state.w.body = "helloKilled process.\n" ∧
      (pipeRequest wrapMarshaler plainOs helloProcess firedWhileRunning "5.0" cgiConfig
        ResponseRecorder.new fooRequest "GET").state.kills = 1 := by
  refine ⟨by decide, by decide, by decide, by decide, by decide, by decide, by decide,
    by decide, by decide, by decide⟩

/-- C4, evaluated on the code: with the debug log on and a process that cannot be started,
under every schedule, the completion path is reached with an error and with `headerWritten`
false, calls `targetCmd.ProcessState.Success()` on a nil `ProcessState` and panics: no
`WriteHeader` call and no `Write` call is made, where the claim has status 500. -/
theorem completion_panics_on_start_failure (schedule : List Tick) :
    missingProcess.err =
        some "fork/exec /usr/bin/qemu-system-x86_64: no such file or directory" ∧
      (pipeRequest wrapMarshaler plainOs missingProcess schedule "0.1" debugConfig
        ResponseRecorder.new fooRequest "GET").cmd ≠ none ∧
      (pipeRequest wrapMarshaler plainOs missingProcess schedule "0.1" debugConfig
        ResponseRecorder.new fooRequest "GET").state.ri.headerWritten = false ∧
      (pipeRequest wrapMarshaler plainOs missingProcess schedule "0.1" debugConfig
        ResponseRecorder.new fooRequest "GET").state.w.writeHeaderCalls = [] ∧
      (pipeRequest wrapMarshaler plainOs missingProcess schedule "0.1" debugConfig
        ResponseRecorder.new fooRequest "GET").state.w.writes = [] ∧
      (pipeRequest wrapMarshaler plainOs missingProcess schedule "0.1" debugConfig
        ResponseRecorder.new fooRequest "GET").panicked = some .nilPointerDereference := by
  rw [pipeRequest_without_timer wrapMarshaler plainOs missingProcess schedule "0.1"
    debugConfig ResponseRecorder.new fooRequest "GET" (by decide)]
  refine ⟨rfl, by decide, by decide, by decide, by decide, by decide⟩


/-- Without a timer, under every schedule, when a process was spawned and the debug log does
not meet a process that could not be started, the response is fixed by the outcome.  Without
error: one `WriteHeader` call, with status 200, the body is exactly `out`, and the headers
sent carry `X-Duration-Seconds`.  With an error: one `WriteHeader` call, with status 500, the
body is the error text, a newline and `out`, and no `X-Duration-Seconds` is sent. -/
theorem completion_response (MarshalRequest : Marshaler) (os : OsEnv) (proc : ProcessOutcome)
    (schedule : List Tick) (duration : String) (config : WatchdogConfig) (r : Request)
    (method : String) (htimeout : ¬ config.execTimeout > 0)
    (hspawn : (pipeRequest MarshalRequest os proc schedule duration config
      ResponseRecorder.new r method).cmd ≠ none)
    (hstate : config.writeDebug = true → proc.started = true) :
    (proc.err = none →
        (pipeRequest MarshalRequest os proc schedule duration config ResponseRecorder.new r
          method).state.w.codes = [200] ∧
        (pipeRequest MarshalRequest os proc schedule duration config ResponseRecorder.new r
          method).state.w.body = proc.out config.combineOutput ∧
        (pipeRequest MarshalRequest os proc schedule duration config ResponseRecorder.new r
          method).state.w.sentHeader.lookup "X-Duration-Seconds" = some [duration]) ∧
      (∀ e, proc.err = some e →
        (pipeRequest MarshalRequest os proc schedule duration config ResponseRecorder.new r
          method).state.w.codes = [500] ∧
        (pipeRequest MarshalRequest os proc schedule duration config ResponseRecorder.new r
          method).state.w.body = e ++ "\n" ++ proc.out config.combineOutput ∧
        (pipeRequest MarshalRequest os proc schedule duration config ResponseRecorder.new r
          method).state.w.sentHeader.lookup "X-Duration-Seconds" = none) := by
  obtain ⟨hbuild, envs, henvs⟩ := pipeRequest_cmd_isSome _ _ _ _ _ _ _ _ _ hspawn
  rw [pipeRequest_spawned MarshalRequest os _ _ duration config _ r method envs hbuild henvs]
  rw [complete_idle _ schedule rfl (by simp [Machine.spawn, htimeout])]
  constructor
  · intro herr
    by_cases h1 : config.contentType.length > 0
    · simp [Machine.spawn, mainPath, completionPath, herr, htimeout, h1, Machine.runSchedule,
        List.replicate, Machine.tick, stepPath, Instr.run, RunState.initial,
        ResponseRecorder.codes, ResponseRecorder.body, ResponseRecorder.sentHeader,
        ResponseRecorder.WriteHeader, ResponseRecorder.Write, ResponseRecorder.SetHeader,
        ResponseRecorder.new, StatusOK, empty_append, lookup_Set_self]
    · by_cases h2 : (r.Header.Get "Content-Type").length > 0
      · simp [Machine.spawn, mainPath, completionPath, herr, htimeout, h1, h2,
          Machine.runSchedule, List.replicate, Machine.tick, stepPath, Instr.run,
          RunState.initial, ResponseRecorder.codes, ResponseRecorder.body,
          ResponseRecorder.sentHeader, ResponseRecorder.WriteHeader, ResponseRecorder.Write,
          ResponseRecorder.SetHeader, ResponseRecorder.new, StatusOK, empty_append,
          lookup_Set_self]
      · simp [Machine.spawn, mainPath, completionPath, herr, htimeout, h1, h2,
          Machine.runSchedule, List.replicate, Machine.tick, stepPath, Instr.run,
          RunState.initial, ResponseRecorder.codes, ResponseRecorder.body,
          ResponseRecorder.sentHeader, ResponseRecorder.WriteHeader, ResponseRecorder.Write,
          ResponseRecorder.SetHeader, ResponseRecorder.new, StatusOK, empty_append,
          lookup_Set_self]
  · intro e herr
    by_cases hd : config.writeDebug = true
    · have hs := hstate hd
      by_cases h1 : (proc.out config.combineOutput).length > 0
      · simp [Machine.spawn, mainPath, completionPath, herr, htimeout, h1, hd, hs,
          Machine.runSchedule, List.replicate, Machine.tick, stepPath, Instr.run,
          RunState.initial, ResponseRecorder.codes, ResponseRecorder.body,
          ResponseRecorder.sentHeader, ResponseRecorder.WriteHeader, ResponseRecorder.Write,
          ResponseRecorder.new, StatusInternalServerError, empty_append]
      · have hout : proc.out config.combineOutput = "" := by
          by_contra hne
          exact h1 ((length_pos_iff_ne_empty _).mpr hne)
        simp [Machine.spawn, mainPath, completionPath, herr, htimeout, hout, hd, hs,
          Machine.runSchedule, List.replicate, Machine.tick, stepPath, Instr.run,
          RunState.initial, ResponseRecorder.codes, ResponseRecorder.body,
          ResponseRecorder.sentHeader, ResponseRecorder.WriteHeader, ResponseRecorder.Write,
          ResponseRecorder.new, StatusInternalServerError, empty_append]
    · by_cases h1 : (proc.out config.combineOutput).length > 0
      · simp [Machine.spawn, mainPath, completionPath, herr, htimeout, h1, hd,
          Machine.runSchedule, List.replicate, Machine.tick, stepPath, Instr.run,
          RunState.initial, ResponseRecorder.codes, ResponseRecorder.body,
          ResponseRecorder.sentHeader, ResponseRecorder.WriteHeader, ResponseRecorder.Write,
          ResponseRecorder.new, StatusInternalServerError, empty_append]
      · have hout : proc.out config.combineOutput = "" := by
          by_contra hne
          exact h1 ((length_pos_iff_ne_empty _).mpr hne)
        simp [Machine.spawn, mainPath, completionPath, herr, htimeout, hout, hd,
          Machine.runSchedule, List.replicate, Machine.tick, stepPath, Instr.run,
          RunState.initial, ResponseRecorder.codes, ResponseRecorder.body,
          ResponseRecorder.sentHeader, ResponseRecorder.WriteHeader, ResponseRecorder.Write,
          ResponseRecorder.new, StatusInternalServerError, empty_append]


/-- The two outcomes of a completion on concrete runs: a process that prints `hello` and ends
without error, and a process that prints `par` and ends with `exit status 1`, with the debug
log on. -/
theorem completion_response_example :
    (pipeRequest wrapMarshaler plainOs helloProcess [] "0.1" cgiConfig ResponseRecorder.new
        fooRequest "GET").state.w.codes = [200] ∧
      (pipeRequest wrapMarshaler plainOs helloProcess [] "0.1" cgiConfig ResponseRecorder.new
        fooRequest "GET").state.w.body = "hello" ∧
      (pipeRequest wrapMarshaler plainOs helloProcess [] "0.1" cgiConfig ResponseRecorder.new
        fooRequest "GET").state.w.sentHeader.lookup "X-Duration-Seconds" = some ["0.1"] ∧
      (pipeRequest wrapMarshaler plainOs (.exited "par" "par and more" (some "exit status 1"))
        [] "0.1" debugConfig ResponseRecorder.new fooRequest "GET").state.w.codes = [500] ∧
      (pipeRequest wrapMarshaler plainOs (.exited "par" "par and more" (some "exit status 1"))
        [] "0.1" debugConfig ResponseRecorder.new fooRequest "GET").state.w.body =
          "exit status 1\npar" ∧
      (pipeRequest wrapMarshaler plainOs (.exited "par" "par and more" (some "exit status 1"))
        [] "0.1" debugConfig ResponseRecorder.new fooRequest
        "GET").state.w.sentHeader.lookup "X-Duration-Seconds" = none ∧
      (pipeRequest wrapMarshaler plainOs missingProcess [] "0.1" plainConfig
        ResponseRecorder.new fooRequest "GET").state.w.codes = [500] ∧
      (pipeRequest wrapMarshaler plainOs missingProcess [] "0.1" plainConfig
        ResponseRecorder.new fooRequest "GET").state.w.body =
          "fork/exec /usr/bin/qemu-system-x86_64: no such file or directory\n" := by
  refine ⟨by decide, by decide, by decide, by decide, by decide, by decide, by decide,
    by decide⟩

/-- Without a timer, on every request whose headers each have a value when CGI mode is on,
and when the debug log does not meet a process that could not be started, one call of
`pipeRequest` makes exactly one `WriteHeader` call, under every schedule. -/
theorem pipeRequest_writes_header_once (MarshalRequest : Marshaler) (os : OsEnv)
    (proc : ProcessOutcome) (schedule : List Tick) (duration : String)
    (config : WatchdogConfig) (r : Request) (method : String)
    (htimeout : ¬ config.execTimeout > 0)
    (hvals : config.cgiHeaders = true → ∀ kv ∈ r.Header, kv.2 ≠ [])
    (hstate : config.writeDebug = true → proc.started = true) :
    (pipeRequest MarshalRequest os proc schedule duration config ResponseRecorder.new r
      method).state.w.codes.length = 1 := by
  cases hb : (buildFunctionInput MarshalRequest config r).2 with
  | some e =>
    rw [pipeRequest_translation_error MarshalRequest os proc schedule duration config _ r
      method e hb]
    rfl
  | none =>
    have hspawn : (pipeRequest MarshalRequest os proc schedule duration config
        ResponseRecorder.new r method).cmd ≠ none := by
      rw [pipeRequest_spawned MarshalRequest os proc schedule duration config _ r method _ hb
        (getAdditionalEnvs_ok config os.environ r method hvals)]
      simp
    have h := completion_response MarshalRequest os proc schedule duration config r method
      htimeout hspawn hstate
    cases herr : proc.err with
    | none => rw [(h.1 herr).1]; rfl
    | some e => rw [(h.2 e herr).1]; rfl

/-- When the whole body of the callback runs while the spawned process is running, before the
end of the process is observed, the only `WriteHeader` call of the run is the one with status
408, the only `Write` call carries `Killed process.`, `Process.Kill` is called once, and the
completion path, whatever the output and the error of the process, writes nothing. -/
theorem timeout_body_while_running (MarshalRequest : Marshaler) (os : OsEnv)
    (duration : String) (config : WatchdogConfig) (r : Request) (method : String)
    (stdout combined : String) (err : Option String) (htimeout : config.execTimeout > 0)
    (hspawn : (pipeRequest MarshalRequest os (.exited stdout combined err)
      (Tick.main :: List.replicate 6 Tick.timer) duration config ResponseRecorder.new r
      method).cmd ≠ none) :
    (pipeRequest MarshalRequest os (.exited stdout combined err)
        (Tick.main :: List.replicate 6 Tick.timer) duration config ResponseRecorder.new r
        method).state.w.codes = [408] ∧
      (pipeRequest MarshalRequest os (.exited stdout combined err)
        (Tick.main :: List.replicate 6 Tick.timer) duration config ResponseRecorder.new r
        method).state.w.writes = ["Killed process.\n"] ∧
      (pipeRequest MarshalRequest os (.exited stdout combined err)
        (Tick.main :: List.replicate 6 Tick.timer) duration config ResponseRecorder.new r
        method).state.kills = 1 := by
  obtain ⟨hbuild, envs, henvs⟩ := pipeRequest_cmd_isSome _ _ _ _ _ _ _ _ _ hspawn
  rw [pipeRequest_spawned MarshalRequest os _ _ duration config _ r method envs hbuild henvs]
  cases err with
  | none =>
    by_cases h1 : config.contentType.length > 0
    · simp [Machine.complete, Machine.spawn, mainPath, completionPath, htimeout, h1,
        Machine.runSchedule, List.replicate, Machine.tick, stepPath, Instr.run,
        RunState.initial, ProcessOutcome.started, ProcessOutcome.err, timeoutCallback,
        ResponseRecorder.codes, ResponseRecorder.WriteHeader, ResponseRecorder.Write,
        ResponseRecorder.SetHeader, ResponseRecorder.new, StatusRequestTimeout]
    · by_cases h2 : (r.Header.Get "Content-Type").length > 0
      · simp [Machine.complete, Machine.spawn, mainPath, completionPath, htimeout, h1, h2,
          Machine.runSchedule, List.replicate, Machine.tick, stepPath, Instr.run,
          RunState.initial, ProcessOutcome.started, ProcessOutcome.err, timeoutCallback,
          ResponseRecorder.codes, ResponseRecorder.WriteHeader, ResponseRecorder.Write,
          ResponseRecorder.SetHeader, ResponseRecorder.new, StatusRequestTimeout]
      · simp [Machine.complete, Machine.spawn, mainPath, completionPath, htimeout, h1, h2,
          Machine.runSchedule, List.replicate, Machine.tick, stepPath, Instr.run,
          RunState.initial, ProcessOutcome.started, ProcessOutcome.err, timeoutCallback,
          ResponseRecorder.codes, ResponseRecorder.WriteHeader, ResponseRecorder.Write,
          ResponseRecorder.SetHeader, ResponseRecorder.new, StatusRequestTimeout]
  | some e =>
    by_cases hd : config.writeDebug = true <;>
      by_cases h1 : (ProcessOutcome.out config.combineOutput
        (.exited stdout combined (some e))).length > 0 <;>
      simp [Machine.complete, Machine.spawn, mainPath, completionPath, htimeout, h1, hd,
        Machine.runSchedule, List.replicate, Machine.tick, stepPath, Instr.run,
        RunState.initial, ProcessOutcome.started, ProcessOutcome.err, timeoutCallback,
        ResponseRecorder.codes, ResponseRecorder.WriteHeader, ResponseRecorder.Write,
        ResponseRecorder.new, StatusRequestTimeout]

/-! ## The environment of the command -/

/-- When every header has a value with CGI mode on, `getAdditionalEnvs` returns the list
of the reference: empty with CGI mode off; with CGI mode on the inherited environment, the
header variables, `Http_Method`, `Http_ContentLength` and `Http_Content_Length` with the same
number, then `Http_Transfer_Encoding`, `Http_Query`, `Http_Path` and `Http_Host`, each exactly
when its source is non-empty.  The command run by `pipeRequest` has its environment unset
with CGI mode off, and set to that list with CGI mode on. -/
theorem getAdditionalEnvs_eq_reference (MarshalRequest : Marshaler) (os : OsEnv)
    (proc : ProcessOutcome) (schedule : List Tick) (duration : String)
    (config : WatchdogConfig) (w : ResponseRecorder) (r : Request) (method : String)
    (hvals : config.cgiHeaders = true → ∀ kv ∈ r.Header, kv.2 ≠ []) :
    getAdditionalEnvs config os.environ r method =
        .ok (getAdditionalEnvsReference config.cgiHeaders os.environ
          (headerVariables r.Header) method r.ContentLength r.TransferEncoding r.RawQuery
          r.Path r.Host) ∧
      (config.cgiHeaders = false → getAdditionalEnvs config os.environ r method = .ok []) ∧
      ∀ c, (pipeRequest MarshalRequest os proc schedule duration config w r method).cmd
          = some c →
        c.Env =
          if config.cgiHeaders then
            some (getAdditionalEnvsReference true os.environ (headerVariables r.Header)
              method r.ContentLength r.TransferEncoding r.RawQuery r.Path r.Host)
          else none := by
  have hok := getAdditionalEnvs_ok config os.environ r method hvals
  refine ⟨hok, ?_, ?_⟩
  · intro hoff
    simp [getAdditionalEnvs, hoff]
  · intro c hc
    have hne : (pipeRequest MarshalRequest os proc schedule duration config w r method).cmd
        ≠ none := by rw [hc]; simp
    obtain ⟨hbuild, _, _⟩ := pipeRequest_cmd_isSome _ _ _ _ _ _ _ _ _ hne
    rw [pipeRequest_spawned MarshalRequest os proc schedule duration config w r method _
      hbuild hok] at hc
    simp only [Option.some.injEq] at hc
    subst hc
    cases hcgi : config.cgiHeaders with
    | false => simp [getAdditionalEnvsReference]
    | true => simp [getAdditionalEnvsReference]

/-- The reference on the request with the header `X-Foo`, CGI mode on. -/
theorem getAdditionalEnvs_eq_reference_example :
    (cgiConfig.cgiHeaders = true → ∀ kv ∈ fooRequest.Header, kv.2 ≠ []) ∧
      getAdditionalEnvs cgiConfig plainOs.environ fooRequest "GET" =
        .ok ["PATH=/bin", "Http_X_Foo=bar", "Http_Method=GET", "Http_ContentLength=0",
          "Http_Content_Length=0", "Http_Query=a=1", "Http_Path=/", "Http_Host=example.org"] ∧
      (pipeRequest wrapMarshaler plainOs helloProcess [] "0.1" cgiConfig
          ResponseRecorder.new fooRequest "GET").cmd.map Cmd.Env =
        some (some ["PATH=/bin", "Http_X_Foo=bar", "Http_Method=GET", "Http_ContentLength=0",
          "Http_Content_Length=0", "Http_Query=a=1", "Http_Path=/", "Http_Host=example.org"]) :=
  ⟨by decide,
    (getAdditionalEnvs_eq_reference wrapMarshaler plainOs helloProcess [] "0.1" cgiConfig
      ResponseRecorder.new fooRequest "GET" (by decide)).1.trans rfl,
    rfl⟩

/-- C8, evaluated on the code: with CGI mode on and a header key bound to an empty slice of
values, `getAdditionalEnvs` panics and returns no list, where the reference is the inherited
environment, the variable of the header that has a value, and the synthesized variables. -/
theorem getAdditionalEnvs_returns_no_reference_list :
    getAdditionalEnvs cgiConfig plainOs.environ mixedValuesRequest "GET" =
        .error (.indexOutOfRange 0 0) ∧
      getAdditionalEnvsReference cgiConfig.cgiHeaders plainOs.environ
          (headerVariables mixedValuesRequest.Header) "GET" mixedValuesRequest.ContentLength
          mixedValuesRequest.TransferEncoding mixedValuesRequest.RawQuery
          mixedValuesRequest.Path mixedValuesRequest.Host =
        ["PATH=/bin", "Http_X_Foo=bar", "Http_Method=GET", "Http_ContentLength=0",
          "Http_Content_Length=0", "Http_Path=/", "Http_Host=example.org"] := by
  exact ⟨rfl, rfl⟩

/-! ## The health handler -/

/-- For every state and method, the health handler answers a GET with status 200 and body `OK`
when the flag is set and `os.Stat` of the lock path does not fail with a not-exist error,
with 503 and no body otherwise, and any other method with 405. -/
theorem health_handler_answers (s : System) (method : String) :
    (method = "GET" →
        s.acceptingConnections ≠ 0 ∧ osStat s (lockFilePath s) ≠ some .ErrNotExist →
        (makeHealthHandler s ResponseRecorder.new method).codes = [200] ∧
        (makeHealthHandler s ResponseRecorder.new method).body = "OK") ∧
      (method = "GET" →
        ¬ (s.acceptingConnections ≠ 0 ∧ osStat s (lockFilePath s) ≠ some .ErrNotExist) →
        (makeHealthHandler s ResponseRecorder.new method).codes = [503] ∧
        (makeHealthHandler s ResponseRecorder.new method).writes = []) ∧
      (method ≠ "GET" →
        (makeHealthHandler s ResponseRecorder.new method).codes = [405] ∧
        (makeHealthHandler s ResponseRecorder.new method).writes = []) := by
  have hpres : lockFilePresent s = true ↔ osStat s (lockFilePath s) ≠ some .ErrNotExist := by
    cases hst : osStat s (lockFilePath s) with
    | none => simp [lockFilePresent, hst, osIsNotExist]
    | some e => cases e <;> simp [lockFilePresent, hst, osIsNotExist]
  refine ⟨?_, ?_, ?_⟩
  · rintro rfl ⟨hflag, hstat⟩
    have hp := hpres.mpr hstat
    simp only [makeHealthHandler, MethodGet, if_true, hflag, hp, false_or]
    constructor <;> rfl
  · rintro rfl hnot
    have hcond : s.acceptingConnections = 0 ∨ lockFilePresent s = false := by
      by_cases hflag : s.acceptingConnections = 0
      · exact Or.inl hflag
      · right
        by_contra hp
        have hp2 : lockFilePresent s = true := by simpa using hp
        exact hnot ⟨hflag, hpres.mp hp2⟩
    simp only [makeHealthHandler, MethodGet, if_true, hcond]
    constructor <;> rfl
  · intro hm
    have hm2 : ¬ method = MethodGet := hm
    simp only [makeHealthHandler, hm2, if_false]
    constructor <;> rfl

/-- From a state in which the flag is clear, a GET gives 503; after a `createLockFile` that
succeeds the lock file exists and a GET gives 200 with `OK`; after the lock file is then
removed a GET gives 503 again. -/
theorem health_handler_sequence (sys : System)
    (hclear : sys.acceptingConnections = 0) (hwrite : (createLockFile sys).2.2 = none) :
    (makeHealthHandler sys ResponseRecorder.new "GET").codes = [503] ∧
      ((createLockFile sys).1.fs (lockFilePath (createLockFile sys).1)).fileExists = true ∧
      (makeHealthHandler (createLockFile sys).1 ResponseRecorder.new "GET").codes = [200] ∧
      (makeHealthHandler (createLockFile sys).1 ResponseRecorder.new "GET").body = "OK" ∧
      (makeHealthHandler (removeFile (createLockFile sys).1 (createLockFile sys).2.1)
        ResponseRecorder.new "GET").codes = [503] := by
  have hcreated : (createLockFile sys).1.acceptingConnections = 1 ∧
      (createLockFile sys).1.lockPath = sys.lockPath ∧
      (createLockFile sys).2.1 = sys.lockPath ∧
      (createLockFile sys).1.fs sys.lockPath = .present := by
    unfold createLockFile ioutilWriteFile lockFilePath at hwrite ⊢
    cases hfs : sys.fs sys.lockPath <;> simp only [hfs] at hwrite ⊢ <;>
      first
        | (exact absurd hwrite (by simp))
        | (by_cases hro : sys.readOnly = true
           · simp [hro] at hwrite
           · simp [hro])
  obtain ⟨hflag, hpath, hret, hpresent⟩ := hcreated
  refine ⟨?_, ?_, ?_, ?_, ?_⟩
  · exact ((health_handler_answers sys "GET").2.1 rfl (fun h => h.1 hclear)).1
  · simp [lockFilePath, hpath, hpresent, PathStatus.fileExists]
  · refine ((health_handler_answers _ "GET").1 rfl ⟨by rw [hflag]; decide, ?_⟩).1
    simp [osStat, lockFilePath, hpath, hpresent]
  · refine ((health_handler_answers _ "GET").1 rfl ⟨by rw [hflag]; decide, ?_⟩).2
    simp [osStat, lockFilePath, hpath, hpresent]
  · refine ((health_handler_answers _ "GET").2.1 rfl ?_).1
    rintro ⟨_, hstat⟩
    apply hstat
    rw [hret]
    simp [osStat, lockFilePath, removeFile, hpresent, hpath]

/-- The sequence on a freshly started system with a writable temporary directory. -/
theorem health_handler_sequence_example :
    freshSystem.acceptingConnections = 0 ∧ (createLockFile freshSystem).2.2 = none ∧
      (makeHealthHandler freshSystem ResponseRecorder.new "GET").codes = [503] ∧
      (makeHealthHandler (createLockFile freshSystem).1 ResponseRecorder.new "GET").codes
        = [200] ∧
      (makeHealthHandler (removeFile (createLockFile freshSystem).1
        (createLockFile freshSystem).2.1) ResponseRecorder.new "GET").codes = [503] :=
  have h := health_handler_sequence freshSystem rfl rfl
  ⟨rfl, rfl, h.1, h.2.2.1, h.2.2.2.2⟩

/-- C6, evaluated on the code: when `TMPDIR` names a regular file, `createLockFile` fails with
`ENOTDIR` and still sets the flag; no lock file exists; `os.Stat` of the lock path fails with
`ENOTDIR`, which is not a not-exist error, so `lockFilePresent` is true and a GET is answered
with status 200 and body `OK`, where the claim has 503. -/
theorem health_handler_ok_without_lock_file :
    misconfiguredSystem.acceptingConnections = 0 ∧
      (createLockFile misconfiguredSystem).2.2 = some .ENOTDIR ∧
      (createLockFile misconfiguredSystem).1.acceptingConnections = 1 ∧
      ((createLockFile misconfiguredSystem).1.fs
        (lockFilePath (createLockFile misconfiguredSystem).1)).fileExists = false ∧
      osStat (createLockFile misconfiguredSystem).1
        (lockFilePath (createLockFile misconfiguredSystem).1) = some .ENOTDIR ∧
      lockFilePresent (createLockFile misconfiguredSystem).1 = true ∧
      (makeHealthHandler (createLockFile misconfiguredSystem).1 ResponseRecorder.new
        "GET").codes = [200] ∧
      (makeHealthHandler (createLockFile misconfiguredSystem).1 ResponseRecorder.new
        "GET").body = "OK" := by
  refine ⟨rfl, by decide, by decide, by decide, by decide, by decide, by decide, by decide⟩

end Watchdog
